import Mathlib

/-!
Verification development for the FADA pipeline's table-extraction and
consolidation engine (src/transformer/build_master_excel.py).

Text is modelled as a list of characters.  A raw grid cell is either empty
(None / NaN after pandas reading) or a text value, following the RawGrid
data model; the general cell cleaner `clean_value` is additionally modelled
on the full tagged domain of Python values it can receive (None, NaN,
infinities, ints, finite floats, strings).
-/

set_option synthInstance.maxSize 512

namespace FADA

abbrev Text := List Char

/-- The apostrophe character (code point 39). -/
def apos : Char := Char.ofNat 39

/-- Python whitespace (`\s`, `str.strip`, `str.split`) restricted to ASCII:
space, tab, newline, carriage return, vertical tab, form feed. -/
def isPySpace (c : Char) : Bool :=
  c == ' ' || c == '\t' || c == '\n' || c == '\r' || c == Char.ofNat 11 || c == Char.ofNat 12

def toUpperT (s : Text) : Text := s.map Char.toUpper

def toLowerT (s : Text) : Text := s.map Char.toLower

/-- Python `str.strip()`: drop leading and trailing whitespace. -/
def stripT (s : Text) : Text :=
  ((s.dropWhile isPySpace).reverse.dropWhile isPySpace).reverse

/-- `re.sub(r'\s+', ' ', s)`: collapse each maximal whitespace run to one space. -/
def collapseGo : Bool → Text → Text
  | _, [] => []
  | prevSpace, c :: rest =>
    if isPySpace c then
      (if prevSpace then collapseGo true rest else ' ' :: collapseGo true rest)
    else c :: collapseGo false rest

def collapseWs (l : Text) : Text := collapseGo false l

/-- Python substring test `pat in s`. -/
def occursIn (pat s : Text) : Bool :=
  s.tails.any (fun t => pat.isPrefixOf t)

/-- Decimal digits to a natural number (e.g. `int("024")`). -/
def digitsToNat (l : Text) : Nat :=
  l.foldl (fun a c => a * 10 + (c.toNat - 48)) 0

/-- Python string `<` comparison (lexicographic by code point). -/
def lexLt : Text → Text → Bool
  | [], [] => false
  | [], _ :: _ => true
  | _ :: _, [] => false
  | a :: as, b :: bs => if a = b then lexLt as bs else decide (a < b)

/-- `normalize_name`: strip, collapse internal whitespace, upper-case. -/
def normalize_name (s : Text) : Text := toUpperT (collapseWs (stripT s))

-- ============== TIMEPOINT PARSER ==============

/-- Exclusion keywords of `extract_timepoints_from_header`: a header cell
containing any of these is never a timepoint. -/
def tpSkipKeywords : List Text :=
  ["%".toList, "YOY".toList, "MOM".toList, "GROWTH".toList, "MARKET SHARE".toList,
   "OEM".toList, "NAME".toList, "CATEGORY".toList, "TOTAL".toList]

def fySepChar (c : Char) : Bool := isPySpace c || c == apos

/-- Match of the regex `FY[\s']*(\d{2,4})` anchored at the head of the text:
returns the captured year digits (greedy, at most 4, at least 2). -/
def fyAt : Text → Option Text
  | 'F' :: 'Y' :: rest =>
    let ds := ((rest.dropWhile fySepChar).takeWhile Char.isDigit)
    if 2 ≤ ds.length then some (ds.take 4) else none
  | _ => none

/-- `re.search` of the FY pattern: leftmost match. -/
def searchFY : Text → Option Text
  | [] => none
  | c :: rest =>
    match fyAt (c :: rest) with
    | some y => some y
    | none => searchFY rest

def monthAbbrevs : List Text :=
  ["JAN".toList, "FEB".toList, "MAR".toList, "APR".toList, "MAY".toList, "JUN".toList,
   "JUL".toList, "AUG".toList, "SEP".toList, "OCT".toList, "NOV".toList, "DEC".toList]

def monthSepChar (c : Char) : Bool := c == apos || isPySpace c || c == '-'

def isUpperAZ (c : Char) : Bool := 'A' ≤ c && c ≤ 'Z'

/-- Match of the regex `(JAN|FEB|...|DEC)[A-Z]*['\s\-]*(\d{2,4})` anchored at
the head of the text: returns (month group, year digits group). -/
def monthAt (l : Text) : Option (Text × Text) :=
  match monthAbbrevs.find? (fun m => m.isPrefixOf l) with
  | none => none
  | some m =>
    let rest := (l.drop 3).dropWhile isUpperAZ
    let ds := (rest.dropWhile monthSepChar).takeWhile Char.isDigit
    if 2 ≤ ds.length then some (m, ds.take 4) else none

/-- `re.search` of the month pattern: leftmost match. -/
def searchMonth : Text → Option (Text × Text)
  | [] => none
  | c :: rest =>
    match monthAt (c :: rest) with
    | some r => some r
    | none => searchMonth rest

/-- `if len(year) == 4: year = year[2:]`. -/
def normYear (y : Text) : Text := if y.length == 4 then y.drop 2 else y

abbrev Cell := Option Text
abbrev GRow := List Cell
abbrev Grid := List GRow

/-- Association-list lookup (Python dict read). -/
def alLookup {β : Type} : List (Text × β) → Text → Option β
  | [], _ => none
  | (k2, v) :: rest, k => if k = k2 then some v else alLookup rest k

/-- Association-list update (Python dict write: overwrite in place, else append). -/
def alUpdate {β : Type} (m : List (Text × β)) (k : Text) (f : Option β → β) :
    List (Text × β) :=
  match m with
  | [] => [(k, f none)]
  | (k2, v) :: rest =>
    if k = k2 then (k2, f (some v)) :: rest else (k2, v) :: alUpdate rest k f

/-- `extract_timepoints_from_header`: map canonical timepoint label to column
index; a later column with the same label overwrites the earlier index. -/
def extract_timepoints_from_header (headerRow : GRow) : List (Text × Nat) :=
  headerRow.enum.foldl (fun tps p =>
    match p.2 with
    | none => tps
    | some cellValue =>
      let cellStr := stripT (toUpperT cellValue)
      if tpSkipKeywords.any (fun k => occursIn k cellStr) then tps
      else
        match searchFY cellStr with
        | some y => alUpdate tps ("FY".toList ++ apos :: normYear y) (fun _ => p.1)
        | none =>
          match searchMonth cellStr with
          | some my => alUpdate tps (my.1.take 3 ++ apos :: normYear my.2) (fun _ => p.1)
          | none => tps) []

-- ============== ROW VALUE NORMALIZER ==============

/-- The duck-typed Python values `clean_value` can receive: None, float NaN,
float infinities, ints, finite floats (exact rationals), strings. -/
inductive PyVal
  | noneVal
  | nanVal
  | infVal (pos : Bool)
  | intVal (n : Int)
  | floatVal (q : Rat)
  | strVal (s : Text)
deriving DecidableEq

/-- `clean_value` either returns an optional integer or raises
(`int(float('inf'))` raises OverflowError). -/
inductive CleanResult
  | ok (v : Option Int)
  | overflowError
deriving DecidableEq

/-- Python `int(q)` on a finite float: truncation toward zero. -/
def truncRat (q : Rat) : Int := if q < 0 then -((-q).floor) else q.floor

/-- `re.match(r'^-?\d+$', l)` followed by `int(l)`. -/
def parseIntText (l : Text) : Option Int :=
  match l with
  | '-' :: ds =>
    if !ds.isEmpty && ds.all Char.isDigit then some (-(digitsToNat ds : Int)) else none
  | ds =>
    if !ds.isEmpty && ds.all Char.isDigit then some ((digitsToNat ds : Int)) else none

/-- The string branch of `clean_value`: strip, delete commas and whitespace,
parse an optional-minus all-digit remainder. -/
def cleanString (s : Text) : Option Int :=
  parseIntText ((stripT s).filter (fun c => !(c == ',' || isPySpace c)))

/-- `clean_value`: clean and convert a raw cell value to an integer. -/
def clean_value : PyVal → CleanResult
  | .noneVal => .ok none
  | .nanVal => .ok none
  | .infVal _ => .overflowError
  | .intVal n => .ok (some n)
  | .floatVal q => .ok (some (truncRat q))
  | .strVal s => .ok (cleanString s)

/-- `clean_value` restricted to RawGrid cells (text or empty). -/
def clean_cell (c : Cell) : Option Int :=
  match c with
  | none => none
  | some s => cleanString s

-- ============== TABLE CLASSIFIER ==============

/-- `TABLE_PATTERNS`, in declaration order. -/
def TABLE_PATTERNS : List (Text × List Text) :=
  [("Two Wheeler (2W)".toList,
      ["two wheeler oem".toList, "two-wheeler oem".toList, "2w oem".toList]),
   ("Two-Wheeler EV OEM".toList,
      ["two wheeler ev".toList, "two-wheeler ev".toList, "electric two-wheeler".toList,
       "2w ev".toList]),
   ("Three Wheeler (3W)".toList,
      ["three wheeler oem".toList, "three-wheeler oem".toList, "3w oem".toList]),
   ("Three-Wheeler EV OEM".toList,
      ["three wheeler ev".toList, "three-wheeler ev".toList, "electric three-wheeler".toList,
       "3w ev".toList]),
   ("Passenger Vehicle (PV)".toList,
      ["passenger vehicle oem".toList, "pv oem".toList, "passenger car".toList]),
   ("PV EV OEM".toList,
      ["pv ev".toList, "passenger vehicle ev".toList, "electric passenger".toList]),
   ("Tractor (TRAC)".toList, ["tractor oem".toList, "tractor".toList]),
   ("Commercial Vehicle (CV)".toList, ["commercial vehicle oem".toList, "cv oem".toList]),
   ("Commercial Vehicle EV OEM".toList,
      ["commercial vehicle ev".toList, "cv ev".toList, "electric commercial".toList]),
   ("Construction Equipment".toList, ["construction equipment".toList, "ce oem".toList]),
   ("Retail Data Summary".toList, ["category".toList, "retail data".toList]),
   ("Inventory Days".toList, ["inventory days".toList, "inventory".toList]),
   ("Retail Strength Urban".toList, ["retail strength".toList, "urban rto".toList]),
   ("Retail Strength Rural".toList, ["retail strength".toList, "rural rto".toList]),
   ("Road Tax Collection".toList, ["road tax".toList, "motor vehicle road tax".toList]),
   ("EV Penetration".toList, ["ev penetration".toList, "electric vehicle penetration".toList]),
   ("Fuel Wise Market Share".toList,
      ["fuel wise".toList, "fuel type".toList, "market share".toList]),
   ("3W Subcategories".toList,
      ["three-wheeler (passenger)".toList, "three-wheeler (goods)".toList,
       "e-rickshaw".toList])]

/-- One grid row rendered into the classifier corpus:
`' '.join(str(x).lower() for x in row.fillna(''))`. -/
def rowCorpus (r : GRow) : Text :=
  List.intercalate (" ".toList) (r.map (fun c => toLowerT (c.getD [])))

/-- The classifier search corpus: lowered sheet name followed by the first
five rows, each preceded by one space. -/
def searchTextOf (g : Grid) (sheetName : Text) : Text :=
  toLowerT sheetName ++ ((g.take 5).map (fun r => ' ' :: rowCorpus r)).flatten

/-- `identify_table_type`: first `TABLE_PATTERNS` entry (declaration order)
one of whose patterns occurs in the corpus. -/
def identify_table_type (g : Grid) (sheetName : Text) : Option Text :=
  (TABLE_PATTERNS.find? (fun tp =>
    tp.2.any (fun pat => occursIn pat (searchTextOf g sheetName)))).map Prod.fst

-- ============== TABLE EXTRACTOR ==============

/-- `find_header_row`: index of the first of the first ten rows whose
timepoint extraction is non-empty. -/
def find_header_row (g : Grid) : Option Nat :=
  ((g.take 10).enum.find? (fun p =>
    !(extract_timepoints_from_header p.2).isEmpty)).map Prod.fst

/-- Structural-header keywords skipped by the extractor row loop. -/
def headerSkipKeywords : List Text :=
  ["OEM NAME".toList, "CATEGORY".toList, "SR NO".toList, "S.NO".toList]

/-- Match of `re.match(r'^\d+\.?\s', l)`: digits, an optional dot, then a
whitespace character, at the start of the text. -/
def startsNumbered (l : Text) : Bool :=
  let ds := l.takeWhile Char.isDigit
  if ds.isEmpty then false
  else
    match l.drop ds.length with
    | '.' :: c :: _ => isPySpace c
    | c :: _ => isPySpace c
    | [] => false

/-- `row.iloc[0]` as an optional text (None when the cell is empty/NaN). -/
def rawLabel (row : GRow) : Option Text := row.head?.bind id

/-- The `row_data` dict built for one data row: for each timepoint column in
range, the cleaned value when it is not absent. -/
def rowDataOf (tps : List (Text × Nat)) (row : GRow) : List (Text × Int) :=
  tps.foldl (fun rd tpc =>
    match row[tpc.2]? with
    | some cellv =>
      match clean_cell cellv with
      | some v => alUpdate rd tpc.1 (fun _ => v)
      | none => rd
    | none => rd) []

/-- One iteration of the extractor's data-row loop: either skip the row or
write its (display label → row data) entry. -/
def processRow (tps : List (Text × Nat))
    (data : List (Text × List (Text × Int))) (row : GRow) :
    List (Text × List (Text × Int)) :=
  match rawLabel row with
  | none => data
  | some labelStr =>
    if (normalize_name labelStr).isEmpty || normalize_name labelStr == "NAN".toList ||
        normalize_name labelStr == "NONE".toList then data
    else if headerSkipKeywords.any (fun k => occursIn k (normalize_name labelStr)) then data
    else if labelStr.head? == some ' ' || labelStr.head? == some '\t' then data
    else if startsNumbered (stripT labelStr) then data
    else if (rowDataOf tps row).isEmpty then data
    else alUpdate data (stripT labelStr) (fun _ => rowDataOf tps row)

/-- `extract_table_data`: locate the header row, classify (sheet name not
passed), then process each subsequent row. -/
def extract_table_data (g : Grid) : Option Text × List (Text × List (Text × Int)) :=
  match find_header_row g with
  | none => (none, [])
  | some headerIdx =>
    match g[headerIdx]? with
    | none => (none, [])
    | some headerRow =>
      let tps := extract_timepoints_from_header headerRow
      if tps.isEmpty then (none, [])
      else
        (identify_table_type g [], (g.drop (headerIdx + 1)).foldl (processRow tps) [])

-- ============== TIMEPOINT SORTING ==============

def isFYLabel (tp : Text) : Bool := ("FY".toList).isPrefixOf tp

/-- `fy_sort`: `int(re.sub(r'\D', '', tp) or 0)`. -/
def fyKeyNat (tp : Text) : Nat := digitsToNat (tp.filter Char.isDigit)

def monthAbbrevsLower : List Text :=
  ["jan".toList, "feb".toList, "mar".toList, "apr".toList, "may".toList, "jun".toList,
   "jul".toList, "aug".toList, "sep".toList, "oct".toList, "nov".toList, "dec".toList]

/-- `datetime.strptime(tp, "%b'%y")`: case-insensitive month abbreviation,
an apostrophe, exactly two digits; years 00-68 map to 2000-2068 and 69-99 to
1969-1999.  Returns (year, month). -/
def strptimeMonYear (tp : Text) : Option (Nat × Nat) :=
  let l := toLowerT tp
  match (monthAbbrevsLower.enum.find? (fun p => p.2.isPrefixOf l)).map (fun p => p.1 + 1) with
  | none => none
  | some m =>
    match l.drop 3 with
    | a :: d1 :: d2 :: [] =>
      if a == apos && d1.isDigit && d2.isDigit then
        let yy := (d1.toNat - 48) * 10 + (d2.toNat - 48)
        some ((if yy ≤ 68 then 2000 + yy else 1900 + yy), m)
      else none
    | _ => none

/-- `month_sort`: the (year, month) pair, with (9999, 12) on a parse failure,
encoded lexicographically as year * 100 + month (months are below 100). -/
def monthKeyNat (tp : Text) : Nat :=
  match strptimeMonYear tp with
  | some ym => ym.1 * 100 + ym.2
  | none => 9999 * 100 + 12

def fyLeR (a b : Text) : Prop := fyKeyNat a ≤ fyKeyNat b

instance : DecidableRel fyLeR := fun _ _ => Nat.decLe _ _

instance : IsTotal Text fyLeR := ⟨fun _ _ => Nat.le_total _ _⟩

instance : IsTrans Text fyLeR := ⟨fun _ _ _ => Nat.le_trans⟩

def monLeR (a b : Text) : Prop := monthKeyNat a ≤ monthKeyNat b

instance : DecidableRel monLeR := fun _ _ => Nat.decLe _ _

instance : IsTotal Text monLeR := ⟨fun _ _ => Nat.le_total _ _⟩

instance : IsTrans Text monLeR := ⟨fun _ _ _ => Nat.le_trans⟩

/-- `sort_timepoints_columns`: fiscal years first (ascending by year), then
months (chronological); both sorts are stable sorts by the Python keys. -/
def sort_timepoints_columns (tps : List Text) : List Text :=
  List.insertionSort fyLeR (tps.filter isFYLabel) ++
    List.insertionSort monLeR (tps.filter (fun t => !(isFYLabel t)))

-- ============== CONSOLIDATION ENGINE ==============

structure SheetT where
  sheetName : Text
  grid : Grid
deriving DecidableEq

structure SourceFile where
  filename : Text
  sheets : List SheetT
deriving DecidableEq

abbrev TripleKey := Text × Text × Text

abbrev Dataset := List (Text × List (Text × List (Text × Int)))

/-- The section a grid's data is filed under: the classified table type, or
the sheet-name fallback bucket. -/
def sectionKeyOf (g : Grid) (sheetName : Text) : Text :=
  match (extract_table_data g).1 with
  | some t => t
  | none => "Sheet: ".toList ++ sheetName

/-- The (section, row, timepoint) → value writes one sheet contributes, in
program order. -/
def sheetWrites (sh : SheetT) : List (TripleKey × Int) :=
  if sh.grid.length < 2 then []
  else
    let td := extract_table_data sh.grid
    if td.2.isEmpty then []
    else
      let sec := sectionKeyOf sh.grid sh.sheetName
      td.2.flatMap (fun rl => rl.2.map (fun tv => ((sec, rl.1, tv.1), tv.2)))

/-- The writes one source file contributes, sheet by sheet. -/
def fileWrites (f : SourceFile) : List (TripleKey × Int) :=
  f.sheets.flatMap sheetWrites

/-- `all_data[table_type][row_label][tp] = val` on the nested dict. -/
def dsInsert (d : Dataset) (k : TripleKey) (v : Int) : Dataset :=
  alUpdate d k.1 (fun so =>
    alUpdate (so.getD []) k.2.1 (fun ro =>
      alUpdate (ro.getD []) k.2.2 (fun _ => v)))

def applyWrites (d : Dataset) (ws : List (TripleKey × Int)) : Dataset :=
  ws.foldl (fun acc w => dsInsert acc w.1 w.2) d

def dsLookup (d : Dataset) (k : TripleKey) : Option Int :=
  (alLookup d k.1).bind (fun m => (alLookup m k.2.1).bind (fun m2 => alLookup m2 k.2.2))

/-- `sorted(excel_files)`: ascending lexicographic filename order. -/
def fileLeR (a b : SourceFile) : Prop := lexLt b.filename a.filename = false

instance : DecidableRel fileLeR := fun _ _ => instDecidableEqBool _ _

/-- The consolidation merge loop over the filename-sorted file list. -/
def consolidate (fs : List SourceFile) : Dataset :=
  applyWrites [] ((List.insertionSort fileLeR fs).flatMap fileWrites)

/-- The set of timepoints observed during consolidation (insertion order). -/
def consolidatedTimepoints (fs : List SourceFile) : List Text :=
  (((List.insertionSort fileLeR fs).flatMap fileWrites).map (fun w => w.1.2.2)).foldl
    (fun acc tp => if tp ∈ acc then acc else acc ++ [tp]) []

/-- The value the last write of a write list leaves at a key. -/
def lastWriteVal : List (TripleKey × Int) → TripleKey → Option Int
  | [], _ => none
  | w :: ws, k =>
    match lastWriteVal ws k with
    | some v => some v
    | none => if k = w.1 then some w.2 else none

-- ============== PERIOD FILTER ==============

def month_names : List (Nat × Text) :=
  [(1, "jan".toList), (2, "feb".toList), (3, "mar".toList), (4, "apr".toList),
   (5, "may".toList), (6, "jun".toList), (7, "jul".toList), (8, "aug".toList),
   (9, "sep".toList), (10, "oct".toList), (11, "nov".toList), (12, "dec".toList)]

/-- `month_names.get(month, '')`. -/
def monthNameOf (m : Nat) : Text :=
  ((month_names.find? (fun p => p.1 == m)).map Prod.snd).getD []

/-- Decimal representation of a natural number (`str(year)`). -/
def natDigits (n : Nat) : Text := Nat.toDigits 10 n

/-- `str(year)[-2:]`. -/
def lastTwo (l : Text) : Text := l.drop (l.length - 2)

/-- `Path.stem`: the file name minus its last suffix. -/
def pyStem (nameT : Text) : Text :=
  let ext := nameT.reverse.takeWhile (fun c => !(c == '.'))
  if ext.length == nameT.length then nameT
  else if ext.isEmpty then nameT
  else if ext.length + 1 == nameT.length then nameT
  else nameT.take (nameT.length - ext.length - 1)

/-- Whether a file matches any requested (month, year) combination by
substring matching on the lowered stem. -/
def fileMatchesFilter (f : SourceFile) (months years : List Nat) : Bool :=
  let filename := toLowerT (pyStem f.filename)
  years.any (fun y => months.any (fun m =>
    occursIn (monthNameOf m) filename &&
    (occursIn (natDigits y) filename || occursIn (lastTwo (natDigits y)) filename)))

/-- The file-selection step of `build_consolidated_master`: filter when both
months and years are given, falling back to all files when nothing matches. -/
def selectFiles (files : List SourceFile) (months years : Option (List Nat)) :
    List SourceFile :=
  match months, years with
  | some ms, some ys =>
    let filtered := files.foldl (fun acc f =>
      if fileMatchesFilter f ms ys then (if f ∈ acc then acc else acc ++ [f]) else acc) []
    if filtered.isEmpty then files else filtered
  | _, _ => files

-- ============== REPORT RENDERER ==============

structure SectionBlock where
  title : Text
  header : List Text
  rows : List (Text × List (Option Int))
deriving DecidableEq

/-- The hard-coded section emission order. -/
def tableOrder : List Text :=
  ["Retail Data Summary".toList, "Inventory Days".toList, "Two Wheeler (2W)".toList,
   "Two-Wheeler EV OEM".toList, "Three Wheeler (3W)".toList, "Three-Wheeler EV OEM".toList,
   "3W Subcategories".toList, "Passenger Vehicle (PV)".toList, "PV EV OEM".toList,
   "Commercial Vehicle (CV)".toList, "Commercial Vehicle EV OEM".toList,
   "Tractor (TRAC)".toList, "Construction Equipment".toList, "Retail Strength Urban".toList,
   "Retail Strength Rural".toList, "Road Tax Collection".toList, "EV Penetration".toList,
   "Fuel Wise Market Share".toList]

/-- Sort key of the row-label sort: the pair (label is a TOTAL row, label),
TOTAL rows last, ties alphabetical. -/
def totalRank (x : Text) : Nat :=
  if toUpperT x = "TOTAL".toList ∨ toUpperT x = "TOTALS".toList then 1 else 0

def rowLeR (a b : Text) : Prop :=
  totalRank a < totalRank b ∨ (totalRank a = totalRank b ∧ lexLt b a = false)

instance : DecidableRel rowLeR := fun _ _ => instDecidableOr

def textLeR (a b : Text) : Prop := lexLt b a = false

instance : DecidableRel textLeR := fun _ _ => instDecidableEqBool _ _

/-- One rendered section: bold title row, `"Item"` plus the shared sorted
timepoint axis, then the data rows (TOTAL rows last). -/
def renderSection (sortedTps : List Text) (title : Text)
    (tbl : List (Text × List (Text × Int))) : SectionBlock :=
  { title := title,
    header := "Item".toList :: sortedTps,
    rows := (List.insertionSort rowLeR (tbl.map Prod.fst)).map (fun lbl =>
      (lbl, sortedTps.map (fun tp => (alLookup tbl lbl).bind (fun rd => alLookup rd tp)))) }

/-- The full rendering pass: curated sections first, remaining sections in
alphabetical order, all sharing one sorted timepoint axis. -/
def renderMaster (allData : Dataset) (allTps : List Text) : List SectionBlock :=
  let sortedTps := sort_timepoints_columns allTps
  let ordered := tableOrder.filter (fun t => (alLookup allData t).isSome)
  let remaining := (List.insertionSort textLeR (allData.map Prod.fst)).filter
    (fun t => !(decide (t ∈ tableOrder)))
  (ordered ++ remaining).map (fun t => renderSection sortedTps t ((alLookup allData t).getD []))

/-- `build_consolidated_master`: the orchestration entry point, returning the
rendered artifact or the "no data" signal. -/
def build_consolidated_master (files : List SourceFile)
    (months years : Option (List Nat)) : Option (List SectionBlock) :=
  if files.isEmpty then none
  else
    let selected := selectFiles files months years
    let allData := consolidate selected
    if allData.isEmpty then none
    else some (renderMaster allData (consolidatedTimepoints selected))

-- ============== CONCRETE INPUTS ==============

def fy22L : Text := "FY".toList ++ apos :: "22".toList

def fy23L : Text := "FY".toList ++ apos :: "23".toList

def fy24L : Text := "FY".toList ++ apos :: "24".toList

/-- The canonical month label the code produces for January 2024. -/
def jan24U : Text := "JAN".toList ++ apos :: "24".toList

/-- The mixed-case header text `Jan'24`. -/
def jan24M : Text := "Jan".toList ++ apos :: "24".toList

def feb24U : Text := "FEB".toList ++ apos :: "24".toList

def mar23M : Text := "Mar".toList ++ apos :: "23".toList

/-- Source grid A of the end-to-end scenario: header `[OEM, FY'23, Jan'24]`,
row `[2W, 1000, 200]`. -/
def gridA : Grid :=
  [[some "OEM".toList, some fy23L, some jan24M],
   [some "2W".toList, some "1000".toList, some "200".toList]]

/-- Source grid B: header `[OEM, Jan'24, Feb'24]`, row `[2W, 250, 300]`. -/
def gridB : Grid :=
  [[some "OEM".toList, some jan24M, some ("Feb".toList ++ apos :: "24".toList)],
   [some "2W".toList, some "250".toList, some "300".toList]]

def fileA : SourceFile :=
  { filename := "a_tables.xlsx".toList, sheets := [{ sheetName := "S".toList, grid := gridA }] }

def fileB : SourceFile :=
  { filename := "b_tables.xlsx".toList, sheets := [{ sheetName := "S".toList, grid := gridB }] }

/-- A grid whose two data rows differ only in letter case. -/
def gCase : Grid :=
  [[some "x".toList, some fy24L],
   [some "AbC".toList, some "1".toList],
   [some "ABC".toList, some "2".toList]]

/-- A grid whose data row label begins with a newline character. -/
def gNl : Grid :=
  [[some "x".toList, some fy24L],
   [some ('\n' :: "ABC".toList), some "7".toList]]

/-- A grid whose data rows are all excluded: an indented sub-item, a numbered
sub-item, and a TOTAL row with no parseable value. -/
def gSub : Grid :=
  [[some "OEM".toList, some fy24L],
   [some "  Sub Model A".toList, some "100".toList],
   [some "1. Model B".toList, some "200".toList],
   [some "TOTAL".toList, some "abc".toList]]

/-- A grid the classifier matches (pattern `inventory days`). -/
def gInv : Grid :=
  [[some "Inventory Days".toList, some fy24L],
   [some "INVENTORY DAYS".toList, some "30".toList]]

/-- A file whose stem contains `jan` and `2025`. -/
def fileJan : SourceFile :=
  { filename := "fada_jan_2025_tables.xlsx".toList, sheets := [] }

/-- A file whose only grid is too small to contribute any data. -/
def fileNoData : SourceFile :=
  { filename := "x_tables.xlsx".toList,
    sheets := [{ sheetName := "s".toList, grid := [[some "a".toList]] }] }

-- ============== HELPER LEMMAS ==============

theorem lexLt_asymm : ∀ (a b : Text), lexLt a b = true → lexLt b a = false
  | [], [], h => by simp [lexLt] at h
  | [], _ :: _, _ => by simp [lexLt]
  | _ :: _, [], h => by simp [lexLt] at h
  | a :: as, b :: bs, h => by
    by_cases hab : a = b
    · subst hab
      simp only [lexLt, if_pos rfl] at h ⊢
      exact lexLt_asymm as bs h
    · have hba : ¬ b = a := fun e => hab e.symm
      simp only [lexLt, if_neg hab] at h
      simp only [lexLt, if_neg hba]
      simp only [decide_eq_true_eq] at h
      simp only [decide_eq_false_iff_not]
      exact lt_asymm h

theorem alLookup_update {β : Type} (m : List (Text × β)) (k : Text) (f : Option β → β)
    (k2 : Text) :
    alLookup (alUpdate m k f) k2 =
      if k2 = k then some (f (alLookup m k)) else alLookup m k2 := by
  induction m with
  | nil =>
    by_cases h : k2 = k <;> simp [alUpdate, alLookup, h]
  | cons p rest ih =>
    obtain ⟨k3, v⟩ := p
    by_cases hkk3 : k = k3
    · subst hkk3
      by_cases h2 : k2 = k <;> simp [alUpdate, alLookup, h2]
    · have h3 : alUpdate ((k3, v) :: rest) k f = (k3, v) :: alUpdate rest k f := by
        simp [alUpdate, hkk3]
      rw [h3]
      by_cases h2 : k2 = k3
      · subst h2
        have hne : ¬ k2 = k := fun e => hkk3 e.symm
        simp [alLookup, hne]
      · simp [alLookup, h2, hkk3, ih]

theorem dsLookup_insert (d : Dataset) (k : TripleKey) (v : Int) (k2 : TripleKey) :
    dsLookup (dsInsert d k v) k2 = if k2 = k then some v else dsLookup d k2 := by
  obtain ⟨s, r, t⟩ := k
  obtain ⟨s2, r2, t2⟩ := k2
  simp only [dsInsert, dsLookup]
  rw [alLookup_update]
  by_cases hs : s2 = s
  · subst hs
    rw [if_pos rfl, Option.some_bind, alLookup_update]
    by_cases hr : r2 = r
    · subst hr
      rw [if_pos rfl, Option.some_bind, alLookup_update]
      by_cases ht : t2 = t
      · subst ht
        simp
      · rw [if_neg ht, if_neg (by simp [ht])]
        cases hm : alLookup d s2 with
        | none => simp [alLookup]
        | some mm =>
          simp only [Option.getD_some, Option.some_bind]
          cases hy : alLookup mm r2 <;> simp [alLookup]
    · rw [if_neg hr, if_neg (by simp [hr])]
      cases hm : alLookup d s2 with
      | none => simp [alLookup]
      | some mm => simp
  · rw [if_neg hs, if_neg (by simp [hs])]

theorem applyWrites_cons (d : Dataset) (w : TripleKey × Int) (ws : List (TripleKey × Int)) :
    applyWrites d (w :: ws) = applyWrites (dsInsert d w.1 w.2) ws := rfl

theorem dsLookup_applyWrites (ws : List (TripleKey × Int)) (d : Dataset) (k : TripleKey) :
    dsLookup (applyWrites d ws) k =
      match lastWriteVal ws k with
      | some v => some v
      | none => dsLookup d k := by
  induction ws generalizing d with
  | nil => simp [applyWrites, lastWriteVal]
  | cons w ws ih =>
    rw [applyWrites_cons, ih]
    simp only [lastWriteVal]
    cases hlast : lastWriteVal ws k with
    | some v => simp
    | none =>
      simp only [dsLookup_insert]
      by_cases hk : k = w.1 <;> simp [hk]

theorem lastWriteVal_append (w1 w2 : List (TripleKey × Int)) (k : TripleKey) :
    lastWriteVal (w1 ++ w2) k =
      match lastWriteVal w2 k with
      | some v => some v
      | none => lastWriteVal w1 k := by
  induction w1 with
  | nil =>
    simp only [List.nil_append, lastWriteVal]
    cases lastWriteVal w2 k <;> simp
  | cons w ws ih =>
    show (match lastWriteVal (ws ++ w2) k with
      | some v => some v
      | none => if k = w.1 then some w.2 else none) = _
    rw [ih]
    cases h2 : lastWriteVal w2 k with
    | some v => simp [lastWriteVal, h2]
    | none =>
      cases h3 : lastWriteVal ws k with
      | some v => simp [lastWriteVal, h2, h3]
      | none => simp [lastWriteVal, h2, h3]

-- Key well-formedness: every nesting level of the dataset has distinct keys.

def NodupKeys {β : Type} (m : List (Text × β)) : Prop := (m.map Prod.fst).Nodup

def dsWF (d : Dataset) : Prop :=
  NodupKeys d ∧ ∀ p ∈ d, NodupKeys p.2 ∧ ∀ q ∈ p.2, NodupKeys q.2

theorem alUpdate_cons_eq {β : Type} (k : Text) (v : β) (rest : List (Text × β))
    (f : Option β → β) : alUpdate ((k, v) :: rest) k f = (k, f (some v)) :: rest := by
  simp [alUpdate]

theorem alUpdate_cons_ne {β : Type} {k k2 : Text} (h : ¬ k = k2) (v : β)
    (rest : List (Text × β)) (f : Option β → β) :
    alUpdate ((k2, v) :: rest) k f = (k2, v) :: alUpdate rest k f := by
  simp [alUpdate, h]

theorem alLookup_cons_eq {β : Type} (k : Text) (v : β) (rest : List (Text × β)) :
    alLookup ((k, v) :: rest) k = some v := by
  simp [alLookup]

theorem alLookup_cons_ne {β : Type} {k k2 : Text} (h : ¬ k = k2) (v : β)
    (rest : List (Text × β)) : alLookup ((k2, v) :: rest) k = alLookup rest k := by
  simp [alLookup, h]

theorem keys_alUpdate_sub {β : Type} (m : List (Text × β)) (k : Text) (f : Option β → β)
    (x : Text) (hx : x ∈ (alUpdate m k f).map Prod.fst) :
    x = k ∨ x ∈ m.map Prod.fst := by
  induction m with
  | nil =>
    simp only [alUpdate, List.map_cons, List.map_nil, List.mem_singleton] at hx
    exact Or.inl hx
  | cons p rest ih =>
    obtain ⟨k3, v⟩ := p
    by_cases hk : k = k3
    · subst hk
      rw [alUpdate_cons_eq] at hx
      simp only [List.map_cons, List.mem_cons] at hx
      simp only [List.map_cons, List.mem_cons]
      rcases hx with h | h
      · exact Or.inl h
      · exact Or.inr (Or.inr h)
    · rw [alUpdate_cons_ne hk] at hx
      simp only [List.map_cons, List.mem_cons] at hx
      simp only [List.map_cons, List.mem_cons]
      rcases hx with h | h
      · exact Or.inr (Or.inl h)
      · rcases ih h with h2 | h2
        · exact Or.inl h2
        · exact Or.inr (Or.inr h2)

theorem nodupKeys_alUpdate {β : Type} (m : List (Text × β)) (k : Text) (f : Option β → β)
    (h : NodupKeys m) : NodupKeys (alUpdate m k f) := by
  induction m with
  | nil => simp [alUpdate, NodupKeys]
  | cons p rest ih =>
    obtain ⟨k3, v⟩ := p
    simp only [NodupKeys, List.map_cons, List.nodup_cons] at h
    by_cases hk : k = k3
    · subst hk
      rw [alUpdate_cons_eq]
      simp only [NodupKeys, List.map_cons, List.nodup_cons]
      exact h
    · rw [alUpdate_cons_ne hk]
      simp only [NodupKeys, List.map_cons, List.nodup_cons]
      refine ⟨fun hmem => ?_, ih h.2⟩
      rcases keys_alUpdate_sub rest k f k3 hmem with h2 | h2
      · exact hk h2.symm
      · exact h.1 h2

theorem mem_alUpdate {β : Type} (m : List (Text × β)) (k : Text) (f : Option β → β)
    (p : Text × β) (hp : p ∈ alUpdate m k f) :
    p ∈ m ∨ p.2 = f (alLookup m k) := by
  induction m with
  | nil =>
    simp only [alUpdate, List.mem_singleton] at hp
    right
    rw [hp]
    rfl
  | cons q rest ih =>
    obtain ⟨k3, v⟩ := q
    by_cases hk : k = k3
    · subst hk
      rw [alUpdate_cons_eq] at hp
      rcases List.mem_cons.mp hp with h | h
      · right
        rw [h, alLookup_cons_eq]
      · left; exact List.mem_cons_of_mem _ h
    · rw [alUpdate_cons_ne hk] at hp
      rcases List.mem_cons.mp hp with h | h
      · left
        rw [h]
        exact List.mem_cons_self _ _
      · rcases ih h with h2 | h2
        · left; exact List.mem_cons_of_mem _ h2
        · right
          rw [h2, alLookup_cons_ne hk]

theorem alLookup_mem {β : Type} (m : List (Text × β)) (k : Text) (v : β)
    (h : alLookup m k = some v) : (k, v) ∈ m := by
  induction m with
  | nil => simp [alLookup] at h
  | cons q rest ih =>
    obtain ⟨k3, w⟩ := q
    by_cases hk : k = k3
    · subst hk
      rw [alLookup_cons_eq, Option.some.injEq] at h
      rw [h]
      exact List.mem_cons_self _ _
    · rw [alLookup_cons_ne hk] at h
      exact List.mem_cons_of_mem _ (ih h)

theorem dsInsert_WF (d : Dataset) (k : TripleKey) (v : Int) (h : dsWF d) :
    dsWF (dsInsert d k v) := by
  obtain ⟨s, r, t⟩ := k
  obtain ⟨hnd, hall⟩ := h
  constructor
  · exact nodupKeys_alUpdate _ _ _ hnd
  · intro p hp
    rcases mem_alUpdate _ _ _ _ hp with hmem | hval
    · exact hall p hmem
    · have hm0 : NodupKeys ((alLookup d s).getD []) ∧
          ∀ q ∈ (alLookup d s).getD [], NodupKeys q.2 := by
        cases hm : alLookup d s with
        | none => simp [NodupKeys]
        | some mm =>
          have := hall (s, mm) (alLookup_mem _ _ _ hm)
          simpa using this
      constructor
      · rw [hval]
        exact nodupKeys_alUpdate _ _ _ hm0.1
      · intro q hq
        rw [hval] at hq
        rcases mem_alUpdate _ _ _ _ hq with hq2 | hq2
        · exact hm0.2 q hq2
        · rw [hq2]
          cases hy : alLookup ((alLookup d s).getD []) r with
          | none => simp [NodupKeys, alUpdate]
          | some rr =>
            have : NodupKeys rr := by
              have := hm0.2 (r, rr) (alLookup_mem _ _ _ hy)
              simpa using this
            simpa using nodupKeys_alUpdate rr t (fun _ => v) this

theorem applyWrites_WF (ws : List (TripleKey × Int)) (d : Dataset) (h : dsWF d) :
    dsWF (applyWrites d ws) := by
  induction ws generalizing d with
  | nil => exact h
  | cons w ws ih =>
    rw [applyWrites_cons]
    exact ih _ (dsInsert_WF _ _ _ h)

theorem consolidate_WF (fs : List SourceFile) : dsWF (consolidate fs) := by
  refine applyWrites_WF _ _ ?_
  exact ⟨List.nodup_nil, by simp⟩

-- Extractor row-loop lemmas.

theorem processRow_skip_of_empty (tps : List (Text × Nat))
    (data : List (Text × List (Text × Int))) (row : GRow) (s : Text)
    (hlabel : rawLabel row = some s) (h : (normalize_name s).isEmpty = true) :
    processRow tps data row = data := by
  simp only [processRow, hlabel]
  split_ifs with h1 h2 h3 h4 h5 <;> first | rfl | exact absurd (by simp [h]) h1

theorem processRow_skip_of_keyword (tps : List (Text × Nat))
    (data : List (Text × List (Text × Int))) (row : GRow) (s : Text)
    (hlabel : rawLabel row = some s)
    (h : (headerSkipKeywords.any (fun k => occursIn k (normalize_name s))) = true) :
    processRow tps data row = data := by
  simp only [processRow, hlabel]
  split_ifs with h1 h2 h3 h4 h5 <;> first | rfl | exact absurd h h2

theorem processRow_skip_of_lead (tps : List (Text × Nat))
    (data : List (Text × List (Text × Int))) (row : GRow) (s : Text)
    (hlabel : rawLabel row = some s)
    (h : (s.head? == some ' ' || s.head? == some '\t') = true) :
    processRow tps data row = data := by
  simp only [processRow, hlabel]
  split_ifs with h1 h2 h3 h4 h5 <;> first | rfl | exact absurd h h3

theorem processRow_skip_of_numbered (tps : List (Text × Nat))
    (data : List (Text × List (Text × Int))) (row : GRow) (s : Text)
    (hlabel : rawLabel row = some s) (h : startsNumbered (stripT s) = true) :
    processRow tps data row = data := by
  simp only [processRow, hlabel]
  split_ifs with h1 h2 h3 h4 h5 <;> first | rfl | exact absurd h h4

theorem processRow_keys (tps : List (Text × Nat))
    (data : List (Text × List (Text × Int))) (row : GRow) (x : Text)
    (hx : x ∈ (processRow tps data row).map Prod.fst) :
    x ∈ data.map Prod.fst ∨ ∃ s, rawLabel row = some s ∧ x = stripT s := by
  cases hlabel : rawLabel row with
  | none =>
    simp only [processRow, hlabel] at hx
    exact Or.inl hx
  | some s =>
    simp only [processRow, hlabel] at hx
    split_ifs at hx with h1 h2 h3 h4 h5
    · exact Or.inl hx
    · exact Or.inl hx
    · exact Or.inl hx
    · exact Or.inl hx
    · exact Or.inl hx
    · rcases keys_alUpdate_sub _ _ _ _ hx with h | h
      · exact Or.inr ⟨s, rfl, h⟩
      · exact Or.inl h

theorem processRow_values (tps : List (Text × Nat))
    (data : List (Text × List (Text × Int))) (row : GRow)
    (hacc : ∀ p ∈ data, p.2 ≠ []) :
    ∀ p ∈ processRow tps data row, p.2 ≠ [] := by
  intro p hp
  cases hlabel : rawLabel row with
  | none =>
    simp only [processRow, hlabel] at hp
    exact hacc p hp
  | some s =>
    simp only [processRow, hlabel] at hp
    split_ifs at hp with h1 h2 h3 h4 h5
    · exact hacc p hp
    · exact hacc p hp
    · exact hacc p hp
    · exact hacc p hp
    · exact hacc p hp
    · rcases mem_alUpdate _ _ _ _ hp with h | h
      · exact hacc p h
      · rw [h]
        intro hemp
        exact h5 (by simp [hemp])

theorem foldl_processRow_keys (tps : List (Text × Nat)) (rows : List GRow)
    (acc : List (Text × List (Text × Int))) (x : Text)
    (hx : x ∈ (rows.foldl (processRow tps) acc).map Prod.fst) :
    x ∈ acc.map Prod.fst ∨ ∃ row ∈ rows, ∃ s, rawLabel row = some s ∧ x = stripT s := by
  induction rows generalizing acc with
  | nil => exact Or.inl hx
  | cons r rs ih =>
    rcases ih _ hx with h | h
    · rcases processRow_keys _ _ _ _ h with h2 | h2
      · exact Or.inl h2
      · exact Or.inr ⟨r, List.mem_cons_self _ _, h2⟩
    · obtain ⟨row, hm, rest⟩ := h
      exact Or.inr ⟨row, List.mem_cons_of_mem _ hm, rest⟩

theorem foldl_processRow_values (tps : List (Text × Nat)) (rows : List GRow)
    (acc : List (Text × List (Text × Int))) (hacc : ∀ p ∈ acc, p.2 ≠ []) :
    ∀ p ∈ rows.foldl (processRow tps) acc, p.2 ≠ [] := by
  induction rows generalizing acc with
  | nil => exact hacc
  | cons r rs ih => exact ih _ (processRow_values _ _ _ hacc)

theorem extract_table_data_keys (g : Grid) (x : Text)
    (hx : x ∈ ((extract_table_data g).2.map Prod.fst)) :
    ∃ row ∈ g, ∃ s, rawLabel row = some s ∧ x = stripT s := by
  unfold extract_table_data at hx
  rcases hfind : find_header_row g with _ | hIdx
  · simp only [hfind] at hx
    simp at hx
  · simp only [hfind] at hx
    rcases hrow : g[hIdx]? with _ | headerRow
    · simp only [hrow] at hx
      simp at hx
    · simp only [hrow] at hx
      by_cases htps : (extract_timepoints_from_header headerRow).isEmpty
      · simp only [if_pos htps] at hx
        simp at hx
      · simp only [if_neg htps] at hx
        rcases foldl_processRow_keys _ _ _ _ hx with h | h
        · simp at h
        · obtain ⟨row, hm, rest⟩ := h
          exact ⟨row, List.mem_of_mem_drop hm, rest⟩

theorem extract_table_data_values (g : Grid) :
    ∀ p ∈ (extract_table_data g).2, p.2 ≠ [] := by
  intro p hp
  unfold extract_table_data at hp
  rcases hfind : find_header_row g with _ | hIdx
  · simp only [hfind] at hp
    simp at hp
  · simp only [hfind] at hp
    rcases hrow : g[hIdx]? with _ | headerRow
    · simp only [hrow] at hp
      simp at hp
    · simp only [hrow] at hp
      by_cases htps : (extract_timepoints_from_header headerRow).isEmpty
      · simp only [if_pos htps] at hp
        simp at hp
      · simp only [if_neg htps] at hp
        exact foldl_processRow_values _ _ _ (by simp) p hp

-- Generic first-match decomposition of List.find?.

theorem find?_decomp {α : Type} (l : List α) (p : α → Bool) (a : α) :
    l.find? p = some a ↔
      ∃ l1 l2, l = l1 ++ a :: l2 ∧ p a = true ∧ ∀ x ∈ l1, p x = false := by
  induction l with
  | nil => simp
  | cons b bs ih =>
    cases hb : p b with
    | true =>
      simp only [List.find?, hb, Option.some.injEq]
      constructor
      · intro hba
        exact ⟨[], bs, by rw [hba]; rfl, by rw [← hba]; exact hb, by simp⟩
      · rintro ⟨l1, l2, heq, hpa, hall⟩
        cases l1 with
        | nil =>
          simp only [List.nil_append, List.cons.injEq] at heq
          exact heq.1
        | cons c cs =>
          simp only [List.cons_append, List.cons.injEq] at heq
          have : p c = false := hall c (List.mem_cons_self _ _)
          rw [← heq.1] at this
          rw [hb] at this
          exact absurd this (by simp)
    | false =>
      simp only [List.find?, hb]
      rw [ih]
      constructor
      · rintro ⟨l1, l2, heq, hpa, hall⟩
        refine ⟨b :: l1, l2, by rw [heq]; rfl, hpa, ?_⟩
        intro x hx
        rcases List.mem_cons.mp hx with h | h
        · rw [h]; exact hb
        · exact hall x h
      · rintro ⟨l1, l2, heq, hpa, hall⟩
        cases l1 with
        | nil =>
          simp only [List.nil_append, List.cons.injEq] at heq
          rw [heq.1] at hb
          rw [hpa] at hb
          exact absurd hb (by simp)
        | cons c cs =>
          simp only [List.cons_append, List.cons.injEq] at heq
          exact ⟨cs, l2, heq.2, hpa, fun x hx => hall x (List.mem_cons_of_mem _ hx)⟩

/-- Partitioning a list by a predicate is a permutation of the list. -/
theorem filter_partition_perm {α : Type} (p : α → Bool) (l : List α) :
    List.Perm (l.filter p ++ l.filter (fun x => !(p x))) l := by
  induction l with
  | nil => simp
  | cons a l ih =>
    cases h : p a with
    | true =>
      simp only [List.filter_cons, h, cond_true, Bool.not_true, cond_false, List.cons_append]
      exact ih.cons a
    | false =>
      simp only [List.filter_cons, h, cond_false, Bool.not_false, cond_true]
      exact List.perm_middle.trans (ih.cons a)

-- ============== CLAIM THEOREMS ==============

/-- C3 counterexample: parsing the header text `Jan'24` does not yield the
label `Jan'24`; the produced label is the upper-cased `JAN'24`. -/
theorem month_label_case_cex :
    extract_timepoints_from_header [some jan24M] = [(jan24U, 0)] ∧ jan24U ≠ jan24M := by
  decide

/-- C3 (amended): timepoint parsing is canonicalizing — `FY'24`, `FY24` and
`FY 2024` all yield the single label `FY'24`, and `Jan'24` and `JANUARY 2024`
both yield the single label `JAN'24` (3-letter month abbreviation upper-cased);
4-digit years are normalized to their last two digits. -/
theorem timepoint_canonicalization :
    extract_timepoints_from_header [some fy24L] = [(fy24L, 0)] ∧
    extract_timepoints_from_header [some "FY24".toList] = [(fy24L, 0)] ∧
    extract_timepoints_from_header [some "FY 2024".toList] = [(fy24L, 0)] ∧
    extract_timepoints_from_header [some jan24M] = [(jan24U, 0)] ∧
    extract_timepoints_from_header [some "JANUARY 2024".toList] = [(jan24U, 0)] ∧
    extract_timepoints_from_header [some "March 2024".toList] =
      [("MAR".toList ++ apos :: "24".toList, 0)] ∧
    extract_timepoints_from_header [some "FY 1987".toList] =
      [("FY".toList ++ apos :: "87".toList, 0)] := by
  decide

/-- C4 counterexample: `clean_value` on an infinite float raises OverflowError
(`int(float('inf'))`), rather than returning absent as the claim states. -/
theorem clean_value_infinite_raises_cex :
    clean_value (PyVal.infVal true) = CleanResult.overflowError ∧
      clean_value (PyVal.infVal true) ≠ CleanResult.ok none := by
  decide

/-- C4 (amended): empty/missing and NaN inputs give absent; an integer is kept;
a finite float is truncated toward zero; an infinite float raises OverflowError
(not absent); a string is stripped of whitespace and thousands separators and
parses only as an optional minus sign followed by digits — with `"1,234"` ↦
1234, `"  -56 "` ↦ -56, `"N/A"` ↦ absent, 12.7 ↦ 12, -12.7 ↦ -12, and the
empty string ↦ absent. -/
theorem clean_value_spec :
    clean_value PyVal.noneVal = CleanResult.ok none ∧
    clean_value PyVal.nanVal = CleanResult.ok none ∧
    (∀ n : Int, clean_value (PyVal.intVal n) = CleanResult.ok (some n)) ∧
    (∀ q : Rat, clean_value (PyVal.floatVal q) = CleanResult.ok (some (truncRat q))) ∧
    (∀ b : Bool, clean_value (PyVal.infVal b) = CleanResult.overflowError) ∧
    (∀ s : Text, clean_value (PyVal.strVal s) =
      CleanResult.ok (parseIntText ((stripT s).filter (fun c => !(c == ',' || isPySpace c))))) ∧
    clean_value (PyVal.strVal "1,234".toList) = CleanResult.ok (some 1234) ∧
    clean_value (PyVal.strVal "  -56 ".toList) = CleanResult.ok (some (-56)) ∧
    clean_value (PyVal.strVal "N/A".toList) = CleanResult.ok none ∧
    clean_value (PyVal.strVal []) = CleanResult.ok none ∧
    clean_value (PyVal.floatVal (127 / 10)) = CleanResult.ok (some 12) ∧
    clean_value (PyVal.floatVal (-127 / 10)) = CleanResult.ok (some (-12)) := by
  refine ⟨rfl, rfl, fun n => rfl, fun q => rfl, fun b => rfl, fun s => rfl,
    by decide, by decide, by decide, by decide, ?_, ?_⟩
  · show CleanResult.ok (some (truncRat (127 / 10))) = _
    norm_num [truncRat, Rat.floor_def']
  · show CleanResult.ok (some (truncRat (-127 / 10))) = _
    norm_num [truncRat, Rat.floor_def']

/-- C2 counterexample: two source rows whose labels differ only in case do not
merge into one row — the extractor keys rows by the verbatim stripped label,
not by its normalized (upper-cased) form. -/
theorem row_identity_not_normalized_cex :
    normalize_name "AbC".toList = normalize_name "ABC".toList ∧
    (extract_table_data gCase).2 =
      [("AbC".toList, [(fy24L, 1)]), ("ABC".toList, [(fy24L, 2)])] := by
  decide

/-- C2 (amended): row identity for merge purposes is the verbatim
whitespace-stripped, case-preserved label — every row key of the Table
Extractor's output is `strip` of the raw first-cell text of some grid row. -/
theorem row_identity_verbatim_strip (g : Grid) (x : Text)
    (hx : x ∈ (extract_table_data g).2.map Prod.fst) :
    ∃ row ∈ g, ∃ s, rawLabel row = some s ∧ x = stripT s :=
  extract_table_data_keys g x hx

theorem row_identity_verbatim_strip_witness :
    ∃ row ∈ gCase, ∃ s, rawLabel row = some s ∧ "AbC".toList = stripT s :=
  row_identity_verbatim_strip gCase "AbC".toList (by decide)

/-- C1: merge precedence is last-writer-wins by lexicographic filename order:
given files F1 and F2, F1 sorting strictly before F2, both contributing a
value at the same (section, row, timepoint) triple, consolidation of the
two-file set — in either input order — holds F2's (last) value at that
triple; and the consolidated dataset is key-well-formed, so every triple
holds at most one value. -/
theorem merge_last_writer_wins (F1 F2 : SourceFile) (k : TripleKey) (v1 v2 : Int)
    (horder : lexLt F1.filename F2.filename = true)
    (h1 : lastWriteVal (fileWrites F1) k = some v1)
    (h2 : lastWriteVal (fileWrites F2) k = some v2)
    (input : List SourceFile) (hin : input = [F1, F2] ∨ input = [F2, F1]) :
    dsLookup (consolidate input) k = some v2 ∧ dsWF (consolidate input) := by
  have hba : lexLt F2.filename F1.filename = false := lexLt_asymm _ _ horder
  have hsorted : List.insertionSort fileLeR input = [F1, F2] := by
    rcases hin with rfl | rfl
    · show List.orderedInsert fileLeR F1 (List.orderedInsert fileLeR F2 []) = _
      simp [List.orderedInsert, fileLeR, hba]
    · show List.orderedInsert fileLeR F2 (List.orderedInsert fileLeR F1 []) = _
      simp [List.orderedInsert, fileLeR, horder, hba]
  refine ⟨?_, consolidate_WF input⟩
  unfold consolidate
  rw [hsorted]
  have hflat : ([F1, F2].flatMap fileWrites) = fileWrites F1 ++ fileWrites F2 := by
    simp
  rw [hflat, dsLookup_applyWrites, lastWriteVal_append, h2]

theorem merge_last_writer_wins_witness :
    dsLookup (consolidate [fileA, fileB]) ("Sheet: S".toList, "2W".toList, jan24U) =
        some 250 ∧
      dsWF (consolidate [fileA, fileB]) :=
  merge_last_writer_wins fileA fileB ("Sheet: S".toList, "2W".toList, jan24U) 200 250
    (by decide) (by decide) (by decide) [fileA, fileB] (Or.inl rfl)

/-- C6 counterexample: the newline character is whitespace, yet a data row
whose label text begins with a newline is present in the Extractor's output —
the code tests only for a leading space or tab. -/
theorem row_exclusion_newline_cex :
    isPySpace '\n' = true ∧
    rawLabel [some ('\n' :: "ABC".toList), some "7".toList] =
      some ('\n' :: "ABC".toList) ∧
    extract_table_data gNl = (none, [("ABC".toList, [(fy24L, 7)])]) := by
  decide

/-- C6 (amended): a data row is skipped whenever its normalized label is
empty, contains a structural-header keyword, its original text begins with a
space or tab character (not any whitespace: a leading newline is kept), or its
original text begins with digits, an optional dot, then whitespace; a
surviving row appears only if at least one timepoint yields a value; and the
claim's concrete rows (`"  Sub Model A"`, `"1. Model B"`, an all-absent
`"TOTAL"`) are all excluded. -/
theorem row_exclusion_rules (tps : List (Text × Nat))
    (data : List (Text × List (Text × Int))) (row : GRow) (s : Text)
    (hlabel : rawLabel row = some s) :
    ((normalize_name s).isEmpty = true → processRow tps data row = data) ∧
    ((headerSkipKeywords.any fun k => occursIn k (normalize_name s)) = true →
      processRow tps data row = data) ∧
    ((s.head? == some ' ' || s.head? == some '\t') = true →
      processRow tps data row = data) ∧
    (startsNumbered (stripT s) = true → processRow tps data row = data) ∧
    (∀ g : Grid, ∀ p ∈ (extract_table_data g).2, p.2 ≠ []) ∧
    extract_table_data gSub = (none, []) := by
  refine ⟨fun h => processRow_skip_of_empty tps data row s hlabel h,
    fun h => processRow_skip_of_keyword tps data row s hlabel h,
    fun h => processRow_skip_of_lead tps data row s hlabel h,
    fun h => processRow_skip_of_numbered tps data row s hlabel h,
    fun g => extract_table_data_values g, by decide⟩

theorem row_exclusion_rules_witness :
    ((normalize_name "  Sub Model A".toList).isEmpty = true →
      processRow [(fy24L, 1)] [] [some "  Sub Model A".toList, some "100".toList] = []) ∧
    ((headerSkipKeywords.any fun k =>
        occursIn k (normalize_name "  Sub Model A".toList)) = true →
      processRow [(fy24L, 1)] [] [some "  Sub Model A".toList, some "100".toList] = []) ∧
    ((("  Sub Model A".toList).head? == some ' ' ||
        ("  Sub Model A".toList).head? == some '\t') = true →
      processRow [(fy24L, 1)] [] [some "  Sub Model A".toList, some "100".toList] = []) ∧
    (startsNumbered (stripT "  Sub Model A".toList) = true →
      processRow [(fy24L, 1)] [] [some "  Sub Model A".toList, some "100".toList] = []) ∧
    (∀ g : Grid, ∀ p ∈ (extract_table_data g).2, p.2 ≠ []) ∧
    extract_table_data gSub = (none, []) :=
  row_exclusion_rules [(fy24L, 1)] [] [some "  Sub Model A".toList, some "100".toList]
    "  Sub Model A".toList (by decide)

/-- C5: timepoint sorting respects the total order — the claim's example sorts
as stated; in general the sorted output is the fiscal-year labels (ascending
by year key) followed by the month labels (ascending chronologically by
(year, month), encoded as year*100+month), a permutation of the input; and
every section block the Renderer emits uses the one sorted axis as its column
header. -/
theorem timepoint_sort_order :
    sort_timepoints_columns [mar23M, fy22L, jan24M, fy24L] =
        [fy22L, fy24L, mar23M, jan24M] ∧
    (∀ l : List Text, ∃ F M, sort_timepoints_columns l = F ++ M ∧
      (∀ x ∈ F, isFYLabel x = true) ∧ (∀ x ∈ M, isFYLabel x = false) ∧
      F.Pairwise fyLeR ∧ M.Pairwise monLeR ∧ List.Perm (F ++ M) l) ∧
    (∀ ad : Dataset, ∀ tps : List Text, ∀ b ∈ renderMaster ad tps,
      b.header = "Item".toList :: sort_timepoints_columns tps) := by
  refine ⟨by decide, ?_, ?_⟩
  · intro l
    refine ⟨List.insertionSort fyLeR (l.filter isFYLabel),
      List.insertionSort monLeR (l.filter (fun t => !(isFYLabel t))), rfl, ?_, ?_, ?_, ?_, ?_⟩
    · intro x hx
      rw [List.mem_insertionSort] at hx
      exact (List.mem_filter.mp hx).2
    · intro x hx
      rw [List.mem_insertionSort] at hx
      have := (List.mem_filter.mp hx).2
      simpa using this
    · exact List.sorted_insertionSort fyLeR _
    · exact List.sorted_insertionSort monLeR _
    · exact ((List.perm_insertionSort _ _).append (List.perm_insertionSort _ _)).trans
        (filter_partition_perm isFYLabel l)
  · intro ad tps b hb
    simp only [renderMaster] at hb
    rcases List.mem_map.mp hb with ⟨t, _, rfl⟩
    rfl

/-- C7: table classification is first-match in the fixed `TABLE_PATTERNS`
declaration order over the corpus built from the sheet label and the first
five rows; no match yields none; and two unclassified grids fall into the
same sheet-keyed fallback section precisely when their sheet labels agree. -/
theorem classifier_first_match (g : Grid) (sheetName : Text) :
    (∀ t : Text, identify_table_type g sheetName = some t ↔
      ∃ ps l1 l2, TABLE_PATTERNS = l1 ++ (t, ps) :: l2 ∧
        (ps.any fun pat => occursIn pat (searchTextOf g sheetName)) = true ∧
        ∀ e ∈ l1, (e.2.any fun pat => occursIn pat (searchTextOf g sheetName)) = false) ∧
    (identify_table_type g sheetName = none ↔
      ∀ e ∈ TABLE_PATTERNS,
        (e.2.any fun pat => occursIn pat (searchTextOf g sheetName)) = false) ∧
    (∀ g2 : Grid, ∀ s2 : Text, (extract_table_data g).1 = none →
      (extract_table_data g2).1 = none →
      (sectionKeyOf g sheetName = sectionKeyOf g2 s2 ↔ sheetName = s2)) := by
  refine ⟨?_, ?_, ?_⟩
  · intro t
    unfold identify_table_type
    constructor
    · intro h
      rcases Option.map_eq_some'.mp h with ⟨e, hfind, het⟩
      rcases (find?_decomp _ _ _).mp hfind with ⟨l1, l2, heq, hpa, hall⟩
      subst het
      refine ⟨e.2, l1, l2, ?_, hpa, fun x hx => hall x hx⟩
      rw [Prod.mk.eta]
      exact heq
    · rintro ⟨ps, l1, l2, heq, hpa, hall⟩
      have hfind : TABLE_PATTERNS.find?
          (fun tp => tp.2.any fun pat => occursIn pat (searchTextOf g sheetName)) =
            some (t, ps) :=
        (find?_decomp _ _ _).mpr ⟨l1, l2, heq, hpa, hall⟩
      rw [hfind]
      rfl
  · unfold identify_table_type
    rw [Option.map_eq_none', List.find?_eq_none]
    constructor
    · intro h e he
      have := h e he
      simpa using this
    · intro h e he
      simp [h e he]
  · intro g2 s2 h1 h2
    simp only [sectionKeyOf, h1, h2]
    constructor
    · intro h
      exact List.append_cancel_left h
    · intro h
      rw [h]

/-- Unfolding of the period-filter accumulation loop: with distinct files it
collects exactly the matching files in order. -/
theorem selectFold_eq_filter (ms ys : List Nat) (files : List SourceFile) :
    ∀ acc : List SourceFile, files.Nodup → (∀ x ∈ files, x ∉ acc) →
      files.foldl (fun acc2 f =>
        if fileMatchesFilter f ms ys then (if f ∈ acc2 then acc2 else acc2 ++ [f])
        else acc2) acc
        = acc ++ files.filter (fun f => fileMatchesFilter f ms ys) := by
  induction files with
  | nil =>
    intro acc _ _
    simp
  | cons f fs ih =>
    intro acc hnd hdisj
    obtain ⟨hf_nin, hfs_nd⟩ := List.nodup_cons.mp hnd
    simp only [List.foldl_cons, List.filter_cons]
    cases hm : fileMatchesFilter f ms ys with
    | true =>
      have hf : f ∉ acc := hdisj f (List.mem_cons_self _ _)
      simp only [hm, if_true, if_neg hf]
      rw [ih (acc ++ [f]) hfs_nd ?_]
      · simp
      · intro x hx
        simp only [List.mem_append, List.mem_singleton]
        rintro (h | h)
        · exact hdisj x (List.mem_cons_of_mem _ hx) h
        · exact hf_nin (h ▸ hx)
    | false =>
      simp only [hm, Bool.false_eq_true, if_false]
      exact ih acc hfs_nd (fun x hx => hdisj x (List.mem_cons_of_mem _ hx))

/-- C8: when a (months, years) filter is given and no file's stem matches any
requested month/year combination, the complete unfiltered file set is
processed; when at least one file matches, exactly the matching files are. -/
theorem period_filter_fallback (files : List SourceFile) (ms ys : List Nat)
    (hnd : files.Nodup) :
    ((∀ f ∈ files, fileMatchesFilter f ms ys = false) →
      selectFiles files (some ms) (some ys) = files) ∧
    ((∃ f ∈ files, fileMatchesFilter f ms ys = true) →
      selectFiles files (some ms) (some ys) =
        files.filter (fun f => fileMatchesFilter f ms ys)) := by
  have hfold := selectFold_eq_filter ms ys files [] hnd (by simp)
  constructor
  · intro hall
    unfold selectFiles
    simp only [hfold, List.nil_append]
    have hnil : files.filter (fun f => fileMatchesFilter f ms ys) = [] := by
      refine List.filter_eq_nil.mpr ?_
      intro a ha
      simp [hall a ha]
    rw [hnil]
    rfl
  · rintro ⟨f, hf, hm⟩
    unfold selectFiles
    simp only [hfold, List.nil_append]
    have hne : files.filter (fun f => fileMatchesFilter f ms ys) ≠ [] := by
      intro h
      have := List.filter_eq_nil.mp h f hf
      simp [hm] at this
    simp [List.isEmpty_iff, hne]

theorem period_filter_fallback_witness :
    selectFiles [fileA, fileB] (some [1]) (some [2025]) = [fileA, fileB] ∧
    selectFiles [fileA, fileJan] (some [1]) (some [2025]) =
      List.filter (fun f => fileMatchesFilter f [1] [2025]) [fileA, fileJan] :=
  ⟨(period_filter_fallback [fileA, fileB] [1] [2025] (by decide)).1 (by decide),
   (period_filter_fallback [fileA, fileJan] [1] [2025] (by decide)).2
     ⟨fileJan, by decide, by decide⟩⟩

/-- C9: the consolidation entry point returns the "no data" value (none) both
for an empty source-file collection and whenever consolidation of the
selected files extracts zero sections — never an artifact in those cases. -/
theorem empty_input_no_data (files : List SourceFile) (ms ys : Option (List Nat)) :
    (files = [] → build_consolidated_master files ms ys = none) ∧
    (consolidate (selectFiles files ms ys) = [] →
      build_consolidated_master files ms ys = none) := by
  constructor
  · rintro rfl
    rfl
  · intro h
    unfold build_consolidated_master
    by_cases hf : files.isEmpty
    · rw [if_pos hf]
    · rw [if_neg hf]
      simp only [h, List.isEmpty_nil, if_true]

theorem empty_input_no_data_witness :
    build_consolidated_master [] none none = none ∧
    build_consolidated_master [fileNoData] none none = none :=
  have h2 : consolidate (selectFiles [fileNoData] none none) = [] := by decide
  ⟨(empty_input_no_data [] none none).1 rfl,
   (empty_input_no_data [fileNoData] none none).2 h2⟩

/-- C10: in the consolidation pipeline the extractor invokes the classifier
with an empty sheet name, so whenever a grid is classified the assigned
SectionType is that of `identify_table_type` on the grid content alone, and
the section key is the same under any two sheet names; the sheet name can
only influence the fallback key of unclassified grids. -/
theorem classifier_sheet_independent :
    (∀ g : Grid, ∀ t : Text, (extract_table_data g).1 = some t →
      identify_table_type g [] = some t) ∧
    (∀ g : Grid, ∀ s1 s2 : Text, (extract_table_data g).1 ≠ none →
      sectionKeyOf g s1 = sectionKeyOf g s2) := by
  constructor
  · intro g t h
    unfold extract_table_data at h
    rcases hfind : find_header_row g with _ | hIdx
    · simp only [hfind] at h
      exact absurd h (by simp)
    · simp only [hfind] at h
      rcases hrow : g[hIdx]? with _ | headerRow
      · simp only [hrow] at h
        exact absurd h (by simp)
      · simp only [hrow] at h
        by_cases htps : (extract_timepoints_from_header headerRow).isEmpty
        · simp only [if_pos htps] at h
          exact absurd h (by simp)
        · simp only [if_neg htps] at h
          exact h
  · intro g s1 s2 h
    rcases hopt : (extract_table_data g).1 with _ | t
    · exact absurd hopt h
    · simp only [sectionKeyOf, hopt]

end FADA
